import Mathlib

/-!
# Verification of the Smoothieware Extruder module (angle-optimizing fork)

Shallow embedding of `src/modules/tools/extruder/Extruder.cpp` (and the
`AngleSensor` leaf) from the SerhiiSemenov/Smoothieware fork.  Floating-point
scalars of the source are embedded as exact rationals (`ℚ`); machine floats on
the relevant code paths carry small exactly-representable values, and every
claim below is about the algebraic structure of the computation, not about
rounding.

The file has two parts: definitions translated from the source, then the
theorems settling the claims about them.
-/

namespace Extruder

/-- Modelled from the spec: `MIN_ANGLE_LIMIT` lives in the missing header
`Extruder.h`; per spec §4.1 the configured limit range is [0, 360]. -/
def MIN_ANGLE_LIMIT : ℚ := 0

/-- Modelled from the spec: `MAX_ANGLE_LIMIT` lives in the missing header
`Extruder.h`; per spec §4.1 the configured limit range is [0, 360]. -/
def MAX_ANGLE_LIMIT : ℚ := 360

/-- The state of the extruder axis read and written by `optimize_angle`
(`Extruder.cpp`, member fields `previous_angle`, `travel_distance`, and the
configuration scalars `steps_per_millimeter`, `steps_per_angle`). -/
structure OptState where
  previous_angle : ℚ
  travel_distance : ℚ
  steps_per_millimeter : ℚ
  steps_per_angle : ℚ
  deriving Repr, DecidableEq

/-- `Extruder::angle_to_distance` (Extruder.cpp:246-249):
`(angle * steps_per_angle) / steps_per_millimeter`. -/
def angle_to_distance (s : OptState) (angle : ℚ) : ℚ :=
  (angle * s.steps_per_angle) / s.steps_per_millimeter

/-- `Extruder::distance_to_angle` (Extruder.cpp:241-244):
`(dist * steps_per_millimeter) / steps_per_angle`. -/
def distance_to_angle (s : OptState) (dist : ℚ) : ℚ :=
  (dist * s.steps_per_millimeter) / s.steps_per_angle

/-- `Extruder::getNextEdgeAngle` (Extruder.cpp:251-259): the antipodal point,
`180 + angle`, reduced by 360 when that reaches 360. -/
def getNextEdgeAngle (angle : ℚ) : ℚ :=
  let resAngle := 180 + angle
  if resAngle ≥ 360 then resAngle - 360 else resAngle

/-- The defensive clamp of `optimize_angle` (Extruder.cpp:288-291): an angle
outside `[MIN_ANGLE_LIMIT, MAX_ANGLE_LIMIT]` is replaced by
`(input_angle / MAX_ANGLE_LIMIT) * MAX_ANGLE_LIMIT`. -/
def clamp_angle (input_angle : ℚ) : ℚ :=
  if MAX_ANGLE_LIMIT < input_angle ∨ input_angle < MIN_ANGLE_LIMIT then
    (input_angle / MAX_ANGLE_LIMIT) * MAX_ANGLE_LIMIT
  else
    input_angle

/-- The vector `rotation_distance` filled by the four `push_back` calls of
`optimize_angle` (Extruder.cpp:294-297), in source order:
direct difference, direct difference around the 0/360 boundary, difference to
the antipodal point, and that antipodal difference around the boundary. -/
def rotation_distances (previous_angle input_angle : ℚ) : List ℚ :=
  [ abs (previous_angle - input_angle),
    abs (360 - abs (previous_angle - input_angle)),
    abs (getNextEdgeAngle previous_angle - input_angle),
    abs (360 - abs (getNextEdgeAngle previous_angle - input_angle)) ]

/-- Value of `*std::min_element` on a nonempty list (minimum; 0 on the empty
list, which the source never queries). -/
def list_min : List ℚ → ℚ
  | [] => 0
  | [x] => x
  | x :: y :: xs => min x (list_min (y :: xs))

/-- Index returned by `std::distance(begin, std::min_element(begin, end))`:
the first index holding the minimum (`std::min_element` only advances on a
strictly smaller element). -/
def first_min_idx : List ℚ → ℕ
  | [] => 0
  | [_] => 0
  | x :: y :: xs => if list_min (y :: xs) < x then first_min_idx (y :: xs) + 1 else 0

/-- The constants `FIRST_CASE`..`FOURTH_CASE` of the missing header are the
indices 0..3 of the vector, as fixed by the case comments at
Extruder.cpp:294-297 and the `switch` at Extruder.cpp:309-346. -/
def FIRST_CASE : ℕ := 0

def SECOND_CASE : ℕ := 1

def THIRD_CASE : ℕ := 2

def FOURTH_CASE : ℕ := 3

/-- `Extruder::optimize_angle` (Extruder.cpp:271-358).  Returns the updated
state together with the function's return value.  Paths, in source order:
negative-angle normalization; the `input_angle == previous_angle` early return
(sets `travel_distance` to 0, state otherwise untouched); the defensive clamp;
the four candidate distances and `std::min_element`; the zero-minimum early
return; the four-way `switch` assigning `travel_distance`; the
`previous_angle` update.  Every `return` statement of the source returns the
literal `0` (the `resAngle` computation is commented out in the source). -/
def optimize_angle (s : OptState) (input_angle0 : ℚ) : OptState × ℚ :=
  let input_angle1 := if input_angle0 < 0 then 360 + input_angle0 else input_angle0
  if input_angle1 = s.previous_angle then
    ({ s with travel_distance := 0 }, 0)
  else
    let input_angle := clamp_angle input_angle1
    let rotation_distance := rotation_distances s.previous_angle input_angle
    let diff_case := first_min_idx rotation_distance
    if rotation_distance.getD diff_case 0 = 0 then
      ({ s with travel_distance := 0 }, 0)
    else
      let td :=
        if diff_case = FIRST_CASE then
          angle_to_distance s (input_angle - s.previous_angle)
        else if diff_case = SECOND_CASE then
          (if s.previous_angle - input_angle < 0 then
            angle_to_distance s (rotation_distance.getD diff_case 0) * (-1)
          else
            angle_to_distance s (rotation_distance.getD diff_case 0))
        else if diff_case = THIRD_CASE then
          angle_to_distance s (input_angle - getNextEdgeAngle s.previous_angle)
        else
          (if getNextEdgeAngle s.previous_angle - input_angle < 0 then
            angle_to_distance s (rotation_distance.getD diff_case 0) * (-1)
          else
            angle_to_distance s (rotation_distance.getD diff_case 0))
      ({ s with travel_distance := td, previous_angle := input_angle }, 0)

/-- The fractional-step arithmetic of `Extruder::on_block_begin`
(Extruder.cpp:784-792).  `steps_to_step = abs((int)floorf(steps_per_millimeter
* (travel_distance + unstepped_distance)))`, then the fractional part is
accumulated into `unstepped_distance`, sign-aware.  Returns the step count and
the new `unstepped_distance`. -/
def block_begin_step (steps_per_millimeter unstepped_distance travel_distance : ℚ) : ℤ × ℚ :=
  let steps_to_step : ℤ := |⌊steps_per_millimeter * (travel_distance + unstepped_distance)⌋|
  if travel_distance > 0 then
    (steps_to_step,
      unstepped_distance + (travel_distance - (steps_to_step : ℚ) / steps_per_millimeter))
  else
    (steps_to_step,
      unstepped_distance + (travel_distance + (steps_to_step : ℚ) / steps_per_millimeter))

/-- `unstepped_distance` after a sequence of `on_block_begin` applications
with the given per-block travel distances. -/
def run_block_begins (steps_per_millimeter : ℚ) : ℚ → List ℚ → ℚ
  | u, [] => u
  | u, d :: ds => run_block_begins steps_per_millimeter (block_begin_step steps_per_millimeter u d).2 ds

/-- Total signed stepped distance over a sequence of `on_block_begin`
applications: each block contributes its reported step count times the step
pitch `1 / steps_per_millimeter`, signed by the direction flag
`travel_distance > 0` that the source passes to `stepper_motor->move`
(Extruder.cpp:798). -/
def signed_step_total (steps_per_millimeter : ℚ) : ℚ → List ℚ → ℚ
  | _, [] => 0
  | u, d :: ds =>
      (if d > 0 then ((block_begin_step steps_per_millimeter u d).1 : ℚ) / steps_per_millimeter
       else -(((block_begin_step steps_per_millimeter u d).1 : ℚ) / steps_per_millimeter))
      + signed_step_total steps_per_millimeter (block_begin_step steps_per_millimeter u d).2 ds

/-- The events of the block claim/release protocol, as dispatched to the
extruder handlers: `on_block_begin` on a path that takes the block
(Extruder.cpp:794-798), `on_block_begin` on a path that does not (mode OFF at
Extruder.cpp:762-766, or zero steps at Extruder.cpp:810-814), `on_block_end`
(Extruder.cpp:819-823), `stepper_motor_finished_move` (Extruder.cpp:881-894),
and the null-argument flush path of `on_speed_change` (Extruder.cpp:861-866). -/
inductive ExtEvent where
  | blockBeginClaim
  | blockBeginNoClaim
  | blockEnd
  | finishedMove
  | speedChangeFlush
  deriving Repr, DecidableEq

/-- Protocol-relevant state: whether `current_block != NULL`, plus ghost
counters of `block->take()` and `block->release()` calls made so far. -/
structure ProtocolState where
  current_block : Bool
  takes : ℕ
  releases : ℕ
  deriving Repr, DecidableEq

/-- State set by `on_module_loaded` (Extruder.cpp:141): `current_block = NULL`
and no takes or releases issued. -/
def protocol_init : ProtocolState :=
  { current_block := false, takes := 0, releases := 0 }

/-- One handler invocation, translated from the source.  `blockBeginClaim`
executes `block->take(); current_block = block` (Extruder.cpp:796-797);
`blockBeginNoClaim` and `blockEnd` execute `current_block = NULL`
(Extruder.cpp:763, 812, 822); `finishedMove` releases only when
`current_block` is non-null (Extruder.cpp:887-891); the flush path of
`on_speed_change` is guarded by `current_block == NULL` returning early
(Extruder.cpp:855) and otherwise releases and clears (Extruder.cpp:861-866). -/
def protocol_step (s : ProtocolState) : ExtEvent → ProtocolState
  | .blockBeginClaim => { current_block := true, takes := s.takes + 1, releases := s.releases }
  | .blockBeginNoClaim => { s with current_block := false }
  | .blockEnd => { s with current_block := false }
  | .finishedMove =>
      if s.current_block then
        { current_block := false, takes := s.takes, releases := s.releases + 1 }
      else s
  | .speedChangeFlush =>
      if s.current_block then
        { current_block := false, takes := s.takes, releases := s.releases + 1 }
      else s

/-- Modelled from the spec: the Conveyor/Block collaborators (their sources
are not under src/) dispatch `on_block_end`, and the `on_block_begin` of the
next block, only once every outstanding `take()` on the previous block has
been matched by a `release()` — the "Ordering guarantees" of spec §5.  In
protocol-state terms: those three events arrive only when this module holds no
claimed block. -/
def event_admissible (s : ProtocolState) : ExtEvent → Bool
  | .blockBeginClaim => !s.current_block
  | .blockBeginNoClaim => !s.current_block
  | .blockEnd => !s.current_block
  | .finishedMove => true
  | .speedChangeFlush => true

/-- Fold of `protocol_step` over an event list. -/
def run_events (s : ProtocolState) : List ExtEvent → ProtocolState
  | [] => s
  | e :: es => run_events (protocol_step s e) es

/-- A trace is admissible when every event is admissible in the state it is
dispatched in. -/
def trace_admissible (s : ProtocolState) : List ExtEvent → Bool
  | [] => true
  | e :: es => event_admissible s e && trace_admissible (protocol_step s e) es

/-- The extruder motion modes (Extruder.cpp:77-79). -/
inductive Mode where
  | off
  | solo
  | follow
  deriving Repr, DecidableEq

/-- Observable effect of one `Extruder::on_speed_change` invocation. -/
inductive SpeedChangeAction where
  | noop
  | stopAndRelease
  | setSpeed (rate : ℚ)
  deriving Repr, DecidableEq

/-- `Extruder::on_speed_change` (Extruder.cpp:852-878).  The guard at
Extruder.cpp:855 returns early unless enabled, a block is claimed, the mode is
FOLLOW and the stepper is moving; a null argument takes the flush path
(Extruder.cpp:861-866: zero move, release, clear); otherwise the speed is set
to `get_trapezoid_adjusted_rate() * steps_to_move / steps_event_count`
(Extruder.cpp:877). -/
def on_speed_change (enabled : Bool) (mode : Mode) (has_current_block : Bool)
    (is_moving : Bool) (argument_null : Bool)
    (trapezoid_adjusted_rate steps_to_move steps_event_count : ℚ) : SpeedChangeAction :=
  if enabled = false ∨ has_current_block = false ∨ mode ≠ Mode.follow ∨ is_moving = false then
    .noop
  else if argument_null then
    .stopAndRelease
  else
    .setSpeed (trapezoid_adjusted_rate * steps_to_move / steps_event_count)

/-- The retract flags of the extruder touched by the G10/G11 handler. -/
structure RetractState where
  retracted : Bool
  cancel_zlift_restore : Bool
  deriving Repr, DecidableEq

/-- The retract-state transition of `Extruder::on_gcode_received` for G10/G11
(Extruder.cpp:563-569): a G10 while not retracted sets `retracted` and clears
`cancel_zlift_restore`; a G11 while retracted clears `retracted`; any other
combination hits the `return; // ignore duplicates` path and leaves the state
unchanged. -/
def on_retract_gcode (g : ℕ) (s : RetractState) : RetractState :=
  if g = 10 ∧ s.retracted = false then
    { retracted := true, cancel_zlift_restore := false }
  else if g = 11 ∧ s.retracted = true then
    { s with retracted := false }
  else
    s

/-- Modelled from the spec: `DEGREE_OF_CYCLE`, the full-cycle sweep threshold
of the homing scan, lives in the missing header `Extruder.h`; spec §4.5 fixes
it at 360°. -/
def DEGREE_OF_CYCLE : ℕ := 360

/-- Modelled from the spec: `RAW_SEARCH_ANGLE`, the per-iteration scan step of
the homing routine, lives in the missing header `Extruder.h`; the spec's
homing scenario fixes it at 10°. -/
def RAW_SEARCH_ANGLE : ℕ := 10

/-- The scan loop of `Extruder::do_home` (Extruder.cpp:909-922) on a run that
is never halted: while `current_search_angle <= DEGREE_OF_CYCLE`, issue one
step move, add `RAW_SEARCH_ANGLE` to the swept total, and push one sensor
sample.  `sensor k` is the raw reading taken on the k-th iteration; the angle
counter holds exact small multiples of 10, so the source's float accumulator
is embedded as a natural number. -/
def do_home_scan (sensor : ℕ → ℤ) (current_search_angle k : ℕ) : List ℤ :=
  if h : current_search_angle ≤ DEGREE_OF_CYCLE then
    sensor k :: do_home_scan sensor (current_search_angle + RAW_SEARCH_ANGLE) (k + 1)
  else
    []
termination_by DEGREE_OF_CYCLE + 1 - current_search_angle
decreasing_by
  simp only [DEGREE_OF_CYCLE, RAW_SEARCH_ANGLE] at *
  omega

/-- Value of `*std::max_element` on a nonempty list of sensor readings (0 on
the empty list, which the source never queries). -/
def list_max : List ℤ → ℤ
  | [] => 0
  | [x] => x
  | x :: y :: xs => max x (list_max (y :: xs))

/-- Index returned by `std::distance(begin, std::max_element(begin, end))`:
the first index holding the maximum (`std::max_element` only advances on a
strictly greater element). -/
def first_max_idx : List ℤ → ℕ
  | [] => 0
  | [_] => 0
  | x :: y :: xs => if x < list_max (y :: xs) then first_max_idx (y :: xs) + 1 else 0

/-- `Extruder::do_home` (Extruder.cpp:896-935) on a run that is never halted:
collect the scan samples, compute `angle = (index of first maximum) *
RAW_SEARCH_ANGLE` (Extruder.cpp:923-924), and issue the final corrective move
of `angle * steps_per_angle` steps (Extruder.cpp:926).  Returns the sample
list, the computed home angle, and the final move's step count. -/
def do_home (steps_per_angle : ℚ) (sensor : ℕ → ℤ) : List ℤ × ℚ × ℚ :=
  let sensor_value := do_home_scan sensor 0 0
  let angle : ℚ := (first_max_idx sensor_value : ℚ) * (RAW_SEARCH_ANGLE : ℚ)
  (sensor_value, angle, angle * steps_per_angle)

theorem list_min_getD : ∀ l : List ℚ, l ≠ [] → l.getD (first_min_idx l) 0 = list_min l
  | [], h => absurd rfl h
  | [x], _ => rfl
  | x :: y :: xs, _ => by
      show (x :: y :: xs).getD (if list_min (y :: xs) < x then first_min_idx (y :: xs) + 1 else 0) 0
          = min x (list_min (y :: xs))
      by_cases hlt : list_min (y :: xs) < x
      · rw [if_pos hlt]
        show (y :: xs).getD (first_min_idx (y :: xs)) 0 = min x (list_min (y :: xs))
        rw [list_min_getD (y :: xs) (by simp), min_eq_right (le_of_lt hlt)]
      · rw [if_neg hlt]
        show x = min x (list_min (y :: xs))
        rw [min_eq_left (not_lt.mp hlt)]

theorem first_min_idx_lt_length : ∀ l : List ℚ, l ≠ [] → first_min_idx l < l.length
  | [], h => absurd rfl h
  | [_], _ => by simp [first_min_idx]
  | x :: y :: xs, _ => by
      show (if list_min (y :: xs) < x then first_min_idx (y :: xs) + 1 else 0) < (y :: xs).length + 1
      by_cases hlt : list_min (y :: xs) < x
      · rw [if_pos hlt]
        exact Nat.succ_lt_succ (first_min_idx_lt_length (y :: xs) (by simp))
      · rw [if_neg hlt]
        exact Nat.succ_pos _

theorem angle_to_distance_abs (s : OptState) (hspm : 0 < s.steps_per_millimeter)
    (hspa : 0 < s.steps_per_angle) (x : ℚ) :
    |angle_to_distance s x| = angle_to_distance s |x| := by
  unfold angle_to_distance
  rw [abs_div, abs_mul, abs_of_pos hspa, abs_of_pos hspm]

theorem angle_to_distance_nonneg (s : OptState) (hspm : 0 < s.steps_per_millimeter)
    (hspa : 0 < s.steps_per_angle) (x : ℚ) (hx : 0 ≤ x) :
    0 ≤ angle_to_distance s x := by
  unfold angle_to_distance
  exact div_nonneg (mul_nonneg hx (le_of_lt hspa)) (le_of_lt hspm)

theorem list_min_rotation (previous_angle input_angle : ℚ) :
    list_min (rotation_distances previous_angle input_angle) =
      min (abs (previous_angle - input_angle))
        (min (abs (360 - abs (previous_angle - input_angle)))
          (min (abs (getNextEdgeAngle previous_angle - input_angle))
            (abs (360 - abs (getNextEdgeAngle previous_angle - input_angle))))) := by
  simp [rotation_distances, list_min]

/-- Claim C7: for every angle a in [0,360), calling `optimize_angle` with input
equal to the stored `previous_angle` a returns zero, sets `travel_distance` to
zero, and leaves `previous_angle` unchanged at a. -/
theorem optimize_angle_noop_on_equal (s : OptState) (h0 : 0 ≤ s.previous_angle)
    (h1 : s.previous_angle < 360) :
    optimize_angle s s.previous_angle = ({ s with travel_distance := 0 }, 0) := by
  simp only [optimize_angle]
  rw [if_neg (not_lt.mpr h0), if_pos rfl]

/-- Witness for C7 at a = 90. -/
theorem optimize_angle_noop_on_equal_witness :
    optimize_angle ⟨90, 7, 10, 5⟩ 90 = (⟨90, 0, 10, 5⟩, 0) :=
  optimize_angle_noop_on_equal ⟨90, 7, 10, 5⟩ (by norm_num) (by norm_num)

/-- Claim C10: for every `previous_angle` in [0,360), calling `optimize_angle`
with the exactly antipodal input `getNextEdgeAngle previous_angle` makes the
third candidate distance exactly zero, takes the zero-minimum early-return
path, sets `travel_distance` to zero and leaves `previous_angle` unchanged. -/
theorem optimize_angle_antipodal_noop (s : OptState) (h0 : 0 ≤ s.previous_angle)
    (h1 : s.previous_angle < 360) :
    (rotation_distances s.previous_angle (getNextEdgeAngle s.previous_angle)).getD 2 0 = 0 ∧
    optimize_angle s (getNextEdgeAngle s.previous_angle) = ({ s with travel_distance := 0 }, 0) := by
  have he0 : 0 ≤ getNextEdgeAngle s.previous_angle := by
    simp only [getNextEdgeAngle]
    split_ifs with h <;> linarith
  have he1 : getNextEdgeAngle s.previous_angle < 360 := by
    simp only [getNextEdgeAngle]
    split_ifs with h <;> linarith
  have hne : getNextEdgeAngle s.previous_angle ≠ s.previous_angle := by
    simp only [getNextEdgeAngle]
    split_ifs with h <;> intro hq <;> linarith
  have hmin : list_min (rotation_distances s.previous_angle (getNextEdgeAngle s.previous_angle)) = 0 := by
    rw [list_min_rotation, sub_self, abs_zero]
    have hq1 : (0:ℚ) ≤ abs (s.previous_angle - getNextEdgeAngle s.previous_angle) := abs_nonneg _
    have hq2 : (0:ℚ) ≤ abs (360 - abs (s.previous_angle - getNextEdgeAngle s.previous_angle)) :=
      abs_nonneg _
    have hq3 : min (0:ℚ) (abs ((360:ℚ) - 0)) = 0 := by norm_num
    rw [hq3, min_eq_right hq2, min_eq_right hq1]
  constructor
  · simp [rotation_distances]
  · have hcl : clamp_angle (getNextEdgeAngle s.previous_angle) = getNextEdgeAngle s.previous_angle := by
      simp only [clamp_angle, MAX_ANGLE_LIMIT, MIN_ANGLE_LIMIT]
      rw [if_neg]
      push_neg
      exact ⟨le_of_lt he1, he0⟩
    simp only [optimize_angle]
    rw [if_neg (not_lt.mpr he0), if_neg hne, hcl,
        list_min_getD _ (by simp [rotation_distances]), hmin, if_pos rfl]

/-- Witness for C10 at previous_angle = 90 (antipodal input 270). -/
theorem optimize_angle_antipodal_noop_witness :
    (rotation_distances (90:ℚ) (getNextEdgeAngle 90)).getD 2 0 = 0 ∧
    optimize_angle ⟨90, 7, 10, 5⟩ (getNextEdgeAngle 90) = (⟨90, 0, 10, 5⟩, 0) :=
  optimize_angle_antipodal_noop ⟨90, 7, 10, 5⟩ (by norm_num) (by norm_num)

/-- Claim C4 (amended): `optimize_angle` returns the literal 0 on every path;
callers receive 0, never the normalized angle. -/
theorem optimize_angle_returns_zero (s : OptState) (a : ℚ) :
    (optimize_angle s a).2 = 0 := by
  simp only [optimize_angle]
  split_ifs <;> rfl

/-- Counterexample for C4 as stated: with previous_angle 0 and in-range input
90, the return value is 0, not the normalized input angle 90. -/
theorem optimize_angle_return_is_not_the_angle :
    (optimize_angle ⟨0, 0, 10, 5⟩ 90).2 = 0 ∧ (0 : ℚ) ≠ 90 := by
  constructor
  · norm_num [optimize_angle, clamp_angle, rotation_distances, first_min_idx, list_min,
      getNextEdgeAngle, angle_to_distance, MAX_ANGLE_LIMIT, MIN_ANGLE_LIMIT,
      FIRST_CASE, SECOND_CASE, THIRD_CASE, FOURTH_CASE]
  · norm_num

/-- Counterexample for C8 as stated: input 400 is outside the configured
range, yet the angle used afterwards (recorded into `previous_angle` on the
main path) is 400 itself, which does not lie within [0, 360]: no modular wrap
happened. -/
theorem clamp_angle_not_a_wrap_at_400 :
    (optimize_angle ⟨0, 0, 10, 5⟩ 400).1.previous_angle = 400 ∧ ¬ (400 : ℚ) ≤ 360 := by
  constructor
  · norm_num [optimize_angle, clamp_angle, rotation_distances, first_min_idx, list_min,
      getNextEdgeAngle, angle_to_distance, MAX_ANGLE_LIMIT, MIN_ANGLE_LIMIT,
      FIRST_CASE, SECOND_CASE, THIRD_CASE, FOURTH_CASE]
  · norm_num

/-- Claim C8 (amended): for every input angle outside the configured
[MIN_ANGLE_LIMIT, MAX_ANGLE_LIMIT] range, the replacement
`(input_angle / MAX_ANGLE_LIMIT) * MAX_ANGLE_LIMIT` equals the input angle in
exact arithmetic: the defensive clamp is an identity and the out-of-range
angle is used unchanged by the candidate computation. -/
theorem clamp_angle_is_identity (a : ℚ) (h : MAX_ANGLE_LIMIT < a ∨ a < MIN_ANGLE_LIMIT) :
    clamp_angle a = a := by
  unfold clamp_angle
  rw [if_pos h, MAX_ANGLE_LIMIT]
  exact div_mul_cancel₀ a (by norm_num)

/-- Witness for the amended C8 at input 400. -/
theorem clamp_angle_is_identity_witness :
    clamp_angle 400 = 400 :=
  clamp_angle_is_identity 400 (Or.inl (by norm_num [MAX_ANGLE_LIMIT]))

/-- Claim C1: for previous_angle and input in [0,360) with input distinct
from previous_angle (and positive step ratios), optimize_angle sets
travel_distance to a value whose magnitude equals angle_to_distance applied
to the minimum of the four wraparound-aware candidate distances, the minimum
being taken with first-listed tie-breaking exactly as std::min_element does. -/
theorem optimize_angle_min_magnitude (s : OptState) (a : ℚ)
    (hp0 : 0 ≤ s.previous_angle) (hp1 : s.previous_angle < 360)
    (ha0 : 0 ≤ a) (ha1 : a < 360) (hne : a ≠ s.previous_angle)
    (hspm : 0 < s.steps_per_millimeter) (hspa : 0 < s.steps_per_angle) :
    abs ((optimize_angle s a).1.travel_distance)
      = angle_to_distance s (list_min (rotation_distances s.previous_angle a)) := by
  have hcl : clamp_angle a = a := by
    simp only [clamp_angle, MAX_ANGLE_LIMIT, MIN_ANGLE_LIMIT]
    rw [if_neg]
    push_neg
    exact ⟨le_of_lt ha1, ha0⟩
  have hgd : (rotation_distances s.previous_angle a).getD
      (first_min_idx (rotation_distances s.previous_angle a)) 0
      = list_min (rotation_distances s.previous_angle a) :=
    list_min_getD _ (by simp [rotation_distances])
  have hlt4 : first_min_idx (rotation_distances s.previous_angle a) < 4 := by
    have hl := first_min_idx_lt_length (rotation_distances s.previous_angle a)
      (by simp [rotation_distances])
    simpa [rotation_distances] using hl
  simp only [optimize_angle]
  rw [if_neg (not_lt.mpr ha0), if_neg hne, hcl]
  by_cases hz : (rotation_distances s.previous_angle a).getD
      (first_min_idx (rotation_distances s.previous_angle a)) 0 = 0
  · rw [if_pos hz]
    rw [hgd] at hz
    rw [hz]
    simp [angle_to_distance]
  · rw [if_neg hz]
    dsimp only
    obtain h0 | h1 | h2 | h3 :
        first_min_idx (rotation_distances s.previous_angle a) = 0 ∨
        first_min_idx (rotation_distances s.previous_angle a) = 1 ∨
        first_min_idx (rotation_distances s.previous_angle a) = 2 ∨
        first_min_idx (rotation_distances s.previous_angle a) = 3 := by omega
    · rw [h0, if_pos (show (0:ℕ) = FIRST_CASE by norm_num [FIRST_CASE])]
      have hm : list_min (rotation_distances s.previous_angle a)
          = abs (s.previous_angle - a) := by
        rw [← hgd, h0]
        simp [rotation_distances]
      rw [hm, angle_to_distance_abs s hspm hspa, abs_sub_comm]
    · rw [h1, if_neg (by norm_num [FIRST_CASE]), if_pos (show (1:ℕ) = SECOND_CASE by norm_num [SECOND_CASE])]
      have hm : list_min (rotation_distances s.previous_angle a)
          = abs (360 - abs (s.previous_angle - a)) := by
        rw [← hgd, h1]
        simp [rotation_distances]
      have hv : (rotation_distances s.previous_angle a).getD 1 0
          = abs (360 - abs (s.previous_angle - a)) := by
        simp [rotation_distances]
      have hnn : 0 ≤ angle_to_distance s ((rotation_distances s.previous_angle a).getD 1 0) :=
        angle_to_distance_nonneg s hspm hspa _ (by rw [hv]; exact abs_nonneg _)
      rw [hm]
      split_ifs with hs
      · rw [mul_neg_one, abs_neg, abs_of_nonneg hnn, hv]
      · rw [abs_of_nonneg hnn, hv]
    · rw [h2, if_neg (by norm_num [FIRST_CASE]), if_neg (by norm_num [SECOND_CASE]), if_pos (show (2:ℕ) = THIRD_CASE by norm_num [THIRD_CASE])]
      have hm : list_min (rotation_distances s.previous_angle a)
          = abs (getNextEdgeAngle s.previous_angle - a) := by
        rw [← hgd, h2]
        simp [rotation_distances]
      rw [hm, angle_to_distance_abs s hspm hspa, abs_sub_comm]
    · rw [h3, if_neg (by norm_num [FIRST_CASE]), if_neg (by norm_num [SECOND_CASE]),
          if_neg (by norm_num [THIRD_CASE])]
      have hm : list_min (rotation_distances s.previous_angle a)
          = abs (360 - abs (getNextEdgeAngle s.previous_angle - a)) := by
        rw [← hgd, h3]
        simp [rotation_distances]
      have hv : (rotation_distances s.previous_angle a).getD 3 0
          = abs (360 - abs (getNextEdgeAngle s.previous_angle - a)) := by
        simp [rotation_distances]
      have hnn : 0 ≤ angle_to_distance s ((rotation_distances s.previous_angle a).getD 3 0) :=
        angle_to_distance_nonneg s hspm hspa _ (by rw [hv]; exact abs_nonneg _)
      rw [hm]
      split_ifs with hs
      · rw [mul_neg_one, abs_neg, abs_of_nonneg hnn, hv]
      · rw [abs_of_nonneg hnn, hv]

/-- Witness for C1 at previous_angle = 0, input = 350 (travel -5, minimum 10). -/
theorem optimize_angle_min_magnitude_witness :
    abs ((optimize_angle ⟨0, 0, 10, 5⟩ 350).1.travel_distance)
      = angle_to_distance ⟨0, 0, 10, 5⟩ (list_min (rotation_distances 0 350)) :=
  optimize_angle_min_magnitude ⟨0, 0, 10, 5⟩ 350 (by norm_num) (by norm_num)
    (by norm_num) (by norm_num) (by norm_num) (by norm_num) (by norm_num)


theorem sub_floor_div_bounds (spm x : ℚ) (h : 0 < spm) :
    0 ≤ x - (⌊spm * x⌋ : ℚ) / spm ∧ x - (⌊spm * x⌋ : ℚ) / spm < 1 / spm := by
  have h1 : (⌊spm * x⌋ : ℚ) ≤ spm * x := Int.floor_le _
  have h2 : spm * x < ⌊spm * x⌋ + 1 := Int.lt_floor_add_one _
  constructor
  · rw [sub_nonneg, div_le_iff₀ h]
    linarith [h1]
  · rw [sub_lt_iff_lt_add, div_add_div_same, lt_div_iff₀ h]
    linarith [h2]

theorem block_begin_unstepped_eq (spm u d : ℚ) (h : 0 < spm) (hu0 : 0 ≤ u)
    (hu1 : u < 1 / spm) :
    (block_begin_step spm u d).2 = (d + u) - (⌊spm * (d + u)⌋ : ℚ) / spm := by
  simp only [block_begin_step]
  split_ifs with hd
  · have hx : 0 < d + u := by linarith
    have hf : 0 ≤ ⌊spm * (d + u)⌋ := Int.floor_nonneg.mpr (le_of_lt (mul_pos h hx))
    dsimp only
    rw [abs_of_nonneg hf]
    ring
  · have hx : spm * (d + u) < 1 := by
      have hxu : d + u ≤ u := by linarith
      have : spm * (d + u) ≤ spm * u := by
        exact mul_le_mul_of_nonneg_left hxu (le_of_lt h)
      have hu2 : spm * u < 1 := by
        rw [lt_div_iff₀ h] at hu1
        linarith [hu1]
      linarith
    have hf : ⌊spm * (d + u)⌋ ≤ 0 := by
      have : ⌊spm * (d + u)⌋ < 1 := Int.floor_lt.mpr (by push_cast; linarith)
      omega
    dsimp only
    rw [abs_of_nonpos hf]
    push_cast
    ring

theorem block_begin_step_inv (spm u d : ℚ) (h : 0 < spm) (hu0 : 0 ≤ u)
    (hu1 : u < 1 / spm) :
    0 ≤ (block_begin_step spm u d).2 ∧ (block_begin_step spm u d).2 < 1 / spm := by
  rw [block_begin_unstepped_eq spm u d h hu0 hu1]
  exact sub_floor_div_bounds spm (d + u) h

theorem block_begin_step_conserve (spm u d : ℚ) :
    (if d > 0 then ((block_begin_step spm u d).1 : ℚ) / spm
     else -(((block_begin_step spm u d).1 : ℚ) / spm))
      + (block_begin_step spm u d).2 = u + d := by
  simp only [block_begin_step]
  split_ifs with hd <;> dsimp only <;> ring

theorem run_block_begins_inv (spm : ℚ) (h : 0 < spm) :
    ∀ (ds : List ℚ) (u : ℚ), 0 ≤ u → u < 1 / spm →
      0 ≤ run_block_begins spm u ds ∧ run_block_begins spm u ds < 1 / spm
  | [], u, hu0, hu1 => ⟨hu0, hu1⟩
  | d :: ds, u, hu0, hu1 => by
      have hstep := block_begin_step_inv spm u d h hu0 hu1
      exact run_block_begins_inv spm h ds _ hstep.1 hstep.2

theorem run_block_begins_conserve (spm : ℚ) :
    ∀ (ds : List ℚ) (u : ℚ),
      signed_step_total spm u ds + run_block_begins spm u ds = u + ds.sum
  | [], u => by simp [signed_step_total, run_block_begins]
  | d :: ds, u => by
      have hrec := run_block_begins_conserve spm ds (block_begin_step spm u d).2
      have hstep := block_begin_step_conserve spm u d
      simp only [signed_step_total, run_block_begins, List.sum_cons]
      linarith [hrec, hstep]

/-- Claim C2: over any sequence of consecutive on_block_begin applications
(mode not OFF) starting from the initialized carry 0, the sum of
direction-signed step counts times the step pitch plus the final
unstepped_distance equals the sum of the travel distances, and after each
application the magnitude of unstepped_distance stays strictly below one step
pitch 1/steps_per_millimeter. -/
theorem on_block_begin_fractional_conservation (spm : ℚ) (ds : List ℚ) (h : 0 < spm) :
    signed_step_total spm 0 ds + run_block_begins spm 0 ds = ds.sum ∧
    ∀ n : ℕ, abs (run_block_begins spm 0 (List.take n ds)) < 1 / spm := by
  constructor
  · have := run_block_begins_conserve spm ds 0
    linarith [this]
  · intro n
    have hinv := run_block_begins_inv spm h (List.take n ds) 0 le_rfl (by positivity)
    rw [abs_of_nonneg hinv.1]
    exact hinv.2

/-- Witness for C2 with steps_per_millimeter 2 and travels [3/2, -1/2]. -/
theorem on_block_begin_fractional_conservation_witness :
    (signed_step_total 2 0 [3/2, -1/2] + run_block_begins 2 0 [3/2, -1/2]
      = ([3/2, -1/2] : List ℚ).sum)
    ∧ abs (run_block_begins 2 0 (List.take 1 [3/2, -1/2])) < 1 / 2 := by
  have h := on_block_begin_fractional_conservation 2 [3/2, -1/2] (by norm_num)
  exact ⟨h.1, h.2 1⟩


theorem protocol_step_inv (s : ProtocolState) (e : ExtEvent)
    (hadm : event_admissible s e = true)
    (hinv : s.takes = s.releases + (if s.current_block then 1 else 0)) :
    (protocol_step s e).takes
      = (protocol_step s e).releases + (if (protocol_step s e).current_block then 1 else 0) := by
  cases e <;> by_cases hc : s.current_block <;>
    simp [protocol_step, event_admissible, hc] at * <;> omega

theorem run_events_inv : ∀ (es : List ExtEvent) (s : ProtocolState),
    trace_admissible s es = true →
    s.takes = s.releases + (if s.current_block then 1 else 0) →
    (run_events s es).takes
      = (run_events s es).releases + (if (run_events s es).current_block then 1 else 0)
  | [], _, _, hinv => hinv
  | e :: es, s, hadm, hinv => by
      simp only [trace_admissible, Bool.and_eq_true] at hadm
      exact run_events_inv es _ hadm.2 (protocol_step_inv s e hadm.1 hinv)

theorem trace_admissible_take : ∀ (es : List ExtEvent) (s : ProtocolState) (n : ℕ),
    trace_admissible s es = true → trace_admissible s (List.take n es) = true
  | [], _, n, h => by simpa [List.take_nil] using h
  | _ :: _, _, 0, _ => rfl
  | e :: es, s, n + 1, h => by
      simp only [List.take_succ_cons, trace_admissible, Bool.and_eq_true] at *
      exact ⟨h.1, trace_admissible_take es _ n h.2⟩

/-- Claim C3: for every admissible sequence of block-begin, block-end,
stepper-finished and flush events (the admissibility predicate encodes the
conveyor ordering guarantee of spec section 5), the number of block claims
never exceeds the number of releases by more than 1 and never falls below it:
once claimed, a block is released exactly once, by the stepper-finished
callback or by the flush path, and never twice. -/
theorem claim_release_balanced (es : List ExtEvent)
    (hadm : trace_admissible protocol_init es = true) :
    ∀ n : ℕ,
      (run_events protocol_init (List.take n es)).releases
          ≤ (run_events protocol_init (List.take n es)).takes ∧
      (run_events protocol_init (List.take n es)).takes
          ≤ (run_events protocol_init (List.take n es)).releases + 1 := by
  intro n
  have h := run_events_inv (List.take n es) protocol_init
    (trace_admissible_take es protocol_init n hadm) rfl
  split_ifs at h <;> omega

/-- Witness for C3 on the trace claim, finished, end at prefix length 2. -/
theorem claim_release_balanced_witness :
    (run_events protocol_init
        (List.take 2 [ExtEvent.blockBeginClaim, ExtEvent.finishedMove, ExtEvent.blockEnd])).releases
      ≤ (run_events protocol_init
        (List.take 2 [ExtEvent.blockBeginClaim, ExtEvent.finishedMove, ExtEvent.blockEnd])).takes ∧
    (run_events protocol_init
        (List.take 2 [ExtEvent.blockBeginClaim, ExtEvent.finishedMove, ExtEvent.blockEnd])).takes
      ≤ (run_events protocol_init
        (List.take 2 [ExtEvent.blockBeginClaim, ExtEvent.finishedMove, ExtEvent.blockEnd])).releases + 1 :=
  claim_release_balanced [ExtEvent.blockBeginClaim, ExtEvent.finishedMove, ExtEvent.blockEnd]
    (by decide) 2

/-- Claim C6: in FOLLOW mode with a claimed block and a moving stepper, a
non-null speed-change sets the stepper speed to the primary rate times this
axis's steps-to-move divided by the block's total step event count; at
primaryRate 2000, stepsToMove 100 and steps_event_count 400 the new speed
is 500. -/
theorem on_speed_change_follow_formula (r stm sec : ℚ) :
    on_speed_change true Mode.follow true true false r stm sec
      = SpeedChangeAction.setSpeed (r * stm / sec) ∧
    on_speed_change true Mode.follow true true false 2000 100 400
      = SpeedChangeAction.setSpeed 500 := by
  constructor
  · simp [on_speed_change]
  · norm_num [on_speed_change]

/-- Claim C9: a G10 while already retracted and a G11 while not retracted are
silent no-ops on the retract state; valid calls toggle the retracted flag
exactly once each, and a valid G10 additionally clears cancel_zlift_restore. -/
theorem retract_toggle_exclusivity (c : Bool) :
    on_retract_gcode 10 ⟨true, c⟩ = ⟨true, c⟩ ∧
    on_retract_gcode 11 ⟨false, c⟩ = ⟨false, c⟩ ∧
    on_retract_gcode 10 ⟨false, c⟩ = ⟨true, false⟩ ∧
    on_retract_gcode 11 ⟨true, c⟩ = ⟨false, c⟩ := by
  cases c <;> decide


theorem do_home_scan_closed (sensor : ℕ → ℤ) :
    ∀ (n : ℕ), n ≤ 37 → ∀ (k : ℕ),
      do_home_scan sensor (370 - 10 * n) k = (List.range n).map (fun i => sensor (k + i))
  | 0, _, k => by
      unfold do_home_scan
      rw [dif_neg (by norm_num [DEGREE_OF_CYCLE])]
      simp
  | n + 1, h, k => by
      unfold do_home_scan
      rw [dif_pos (by rw [DEGREE_OF_CYCLE]; omega)]
      have harith : 370 - 10 * (n + 1) + RAW_SEARCH_ANGLE = 370 - 10 * n := by
        rw [RAW_SEARCH_ANGLE]; omega
      rw [harith, do_home_scan_closed sensor n (by omega) (k + 1)]
      rw [List.range_succ_eq_map]
      simp only [List.map_cons, List.map_map, Nat.add_zero]
      congr 1
      apply List.map_congr_left
      intro i _
      simp only [Function.comp]
      congr 1
      omega

theorem do_home_scan_from_zero (sensor : ℕ → ℤ) :
    do_home_scan sensor 0 0 = (List.range 37).map sensor := by
  have h := do_home_scan_closed sensor 37 le_rfl 0
  norm_num at h
  simpa using h

/-- Counterexample for C5 as stated: with threshold 360 and step 10 the scan
loop runs for swept angles 0,10,...,360 inclusive (the loop condition is <=),
so do_home collects 37 samples, not 36. -/
theorem do_home_collects_37_samples :
    (do_home 1 (fun _ => 0)).1.length = 37 ∧ (37 : ℕ) ≠ 36 := by
  constructor
  · show (do_home_scan (fun _ => 0) 0 0).length = 37
    rw [do_home_scan_from_zero]
    simp
  · decide

/-- Claim C5 (amended): with full-cycle threshold 360 and step increment 10,
do_home collects exactly 37 samples (indices 0..36); if the maximum sample
first occurs at index 18, the computed home angle is 18 * 10 = 180 degrees
and the final corrective move is 180 * steps_per_angle steps. -/
theorem do_home_result (spa : ℚ) (sensor : ℕ → ℤ)
    (hpeak : first_max_idx (do_home spa sensor).1 = 18) :
    (do_home spa sensor).1.length = 37 ∧
    (do_home spa sensor).2.1 = 180 ∧ (do_home spa sensor).2.2 = 180 * spa := by
  refine ⟨?_, ?_, ?_⟩
  · show (do_home_scan sensor 0 0).length = 37
    rw [do_home_scan_from_zero]
    simp
  · show ((first_max_idx (do_home_scan sensor 0 0) : ℚ) * (RAW_SEARCH_ANGLE : ℚ)) = 180
    have hp : first_max_idx (do_home_scan sensor 0 0) = 18 := hpeak
    rw [hp]
    norm_num [RAW_SEARCH_ANGLE]
  · show ((first_max_idx (do_home_scan sensor 0 0) : ℚ) * (RAW_SEARCH_ANGLE : ℚ)) * spa = 180 * spa
    have hp : first_max_idx (do_home_scan sensor 0 0) = 18 := hpeak
    rw [hp]
    norm_num [RAW_SEARCH_ANGLE]

set_option maxRecDepth 10000 in
/-- Witness for the amended C5: a sensor that reads 1 only on sample 18. -/
theorem do_home_result_witness :
    (do_home 2 (fun k => if k = 18 then (1:ℤ) else 0)).1.length = 37 ∧
    (do_home 2 (fun k => if k = 18 then (1:ℤ) else 0)).2.1 = 180 ∧
    (do_home 2 (fun k => if k = 18 then (1:ℤ) else 0)).2.2 = 180 * 2 :=
  do_home_result 2 (fun k => if k = 18 then (1:ℤ) else 0) (by
    show first_max_idx (do_home_scan (fun k => if k = 18 then (1:ℤ) else 0) 0 0) = 18
    rw [do_home_scan_from_zero]
    decide)

end Extruder
